import Mathlib

/-!
Shallow embedding of the expression-to-SlithIR lowering engine of
`slither-certik` (src/slither/visitors/slithir/expression_to_slithir.py),
of the base `Call` operation (src/slither/slithir/operations/call.py), and
of the pieces of the surrounding data model that the lowering manipulates.

Python objects become inductive values; the per-node scratch store
(`expression.context["expressionToSlithIR"]`) becomes an association list
keyed by a per-node identifier; fresh `TemporaryVariable` / `ReferenceVariable`
/ `TupleVariable` allocation becomes a counter threaded through the state;
Python exceptions (KeyError on a missing scratch slot, AssertionError,
SlithIRError) become the `Except String` error path.
-/

namespace Slither

/-- Solidity-level types as the lowering sees them: `ElementaryType(name)`
(compared by name), `ArrayType(base, length)` (length recorded from the
constant's value string), `TypeAlias` (user defined value types, carrying the
underlying type), and enum types. -/
inductive SolType where
  | elementary (name : String)
  | array (base : SolType) (length : String)
  | alias (name : String) (underlying : SolType)
  | enumT (name : String)
deriving DecidableEq, Repr

/-- Runtime value produced by the external `ConstantFolding` evaluator:
a Python `bool`, `int` or `str`. -/
inductive CFValue where
  | b (v : Bool)
  | i (v : Int)
  | s (v : String)
deriving DecidableEq, Repr

/-- Python `str(...)` applied to a folded runtime value. -/
def CFValue.str : CFValue → String
  | .b true => "True"
  | .b false => "False"
  | .i v => toString v
  | .s v => v

/-- The scalar values the lowering manipulates: Python `None`, SlithIR
variables (`Constant`, `TemporaryVariable`, `ReferenceVariable`,
`TupleVariable`), pre-existing symbols (local/state variables,
`SolidityVariable`, `SolidityVariableComposed`, `SolidityFunction`, declared
`Function`s, `TypeAlias`es, `Contract`s, `Enum`s, custom errors), and types
appearing in value position. A `Contract`'s file-scope user-defined-type
table is flattened to `(memberName, aliasName, underlyingType)` triples (its
entries are `TypeAlias` objects) and its custom-error table to the list of
error names. -/
inductive Val where
  | none_
  | typ (t : SolType)
  | const (value : String) (ty : Option SolType) (subdenomination : Option String)
  | temp (id : Nat) (ty : Option SolType)
  | ref (id : Nat)
  | tup (id : Nat)
  | localVariable (name : String) (ty : SolType)
  | localVariableInitFromTuple (name : String) (ty : SolType) (tupleIndex : Option Nat)
  | stateVariable (name : String) (ty : SolType)
  | solidityVariable (name : String)
  | solidityVariableComposed (name : String)
  | solidityFunction (name : String)
  | functionVal (name : String) (returns : List SolType)
  | typeAliasVal (name : String) (underlying : SolType)
  | contractVal (name : String) (userDefinedTypes : List (String × String × SolType))
      (customErrors : List String)
  | enumVal (name : String) (values : List String)
  | customErrorVal (name : String)
deriving DecidableEq, Repr

/-- A value as recorded in the scratch store: either a scalar or a Python
list of scalars (tuple-of-targets / inline-array element lists; discarded
slots appear as `Val.none_` entries). Solidity has no nested destructuring,
so one list layer suffices. -/
inductive SVal where
  | v (x : Val)
  | list (xs : List Val)
deriving DecidableEq, Repr

/-- Python `isinstance(x, Variable)`: SlithIR variables and source variables are
`Variable` subclasses; solidity pseudo-entities, functions, contracts, types,
errors and `None` are not. -/
def Val.isVariable : Val → Bool
  | .const _ _ _ | .temp _ _ | .ref _ | .tup _ | .localVariable _ _
  | .localVariableInitFromTuple _ _ _ | .stateVariable _ _ => true
  | _ => false

/-- The `.type` attribute of a value, where it has one. -/
def Val.typeOf : Val → Option SolType
  | .const _ t _ => t
  | .temp _ t => t
  | .localVariable _ t => some t
  | .localVariableInitFromTuple _ t _ => some t
  | .stateVariable _ t => some t
  | _ => Option.none

/-- The `.name` attribute of a value, for the yul pseudo-function checks
(`called.name == "caller()"` etc.). Entities without a `name` attribute give
`none` (such a value never matches a yul pseudo-function name). -/
def Val.nameOf : Val → Option String
  | .const v _ _ => some v
  | .localVariable n _ => some n
  | .localVariableInitFromTuple n _ _ => some n
  | .stateVariable n _ => some n
  | .solidityVariable n => some n
  | .solidityVariableComposed n => some n
  | .solidityFunction n => some n
  | .functionVal n _ => some n
  | .typeAliasVal n _ => some n
  | .contractVal n _ _ => some n
  | .enumVal n _ => some n
  | .customErrorVal n => some n
  | _ => Option.none

/-- SlithIR binary opcodes (`slither.slithir.operations.BinaryType`); the IR
opcode set has no signed variants — signedness is compiled away by the
lowering. -/
inductive BinaryType where
  | power | multiplication | division | modulo | addition | subtraction
  | leftShift | rightShift | and_ | caret | or_
  | less | greater | lessEqual | greaterEqual | equal | notEqual
  | andand | oror
deriving DecidableEq, Repr

/-- Surface binary operators (`slither.core.expressions.BinaryOperationType`),
including the signed variants introduced by the front end. -/
inductive BinaryOperationType where
  | power | multiplication | division | divisionSigned | modulo | moduloSigned
  | addition | subtraction
  | leftShift | rightShift | rightShiftArithmetic
  | and_ | caret | or_
  | less | lessSigned | greater | greaterSigned | lessEqual | greaterEqual
  | equal | notEqual | andand | oror
deriving DecidableEq, Repr

/-- Surface unary operators (`slither.core.expressions.UnaryOperationType`). -/
inductive UnaryOperationType where
  | bang | tild | deleteOp
  | plusplusPre | minusminusPre | plusplusPost | minusminusPost
  | plusPre | minusPre
deriving DecidableEq, Repr

/-- Surface assignment operators
(`slither.core.expressions.AssignmentOperationType`). -/
inductive AssignmentOperationType where
  | assign | assignOr | assignCaret | assignAnd
  | assignLeftShift | assignRightShift
  | assignAddition | assignSubtraction | assignMultiplication
  | assignDivision | assignModulo
deriving DecidableEq, Repr

/-- The `_binary_to_binary` table: surface operator to IR opcode for the
non-signed operators (`none` = KeyError on lookup). -/
def binaryToBinary : BinaryOperationType → Option BinaryType
  | .power => some .power
  | .multiplication => some .multiplication
  | .division => some .division
  | .modulo => some .modulo
  | .addition => some .addition
  | .subtraction => some .subtraction
  | .leftShift => some .leftShift
  | .rightShift => some .rightShift
  | .and_ => some .and_
  | .caret => some .caret
  | .or_ => some .or_
  | .less => some .less
  | .greater => some .greater
  | .lessEqual => some .lessEqual
  | .greaterEqual => some .greaterEqual
  | .equal => some .equal
  | .notEqual => some .notEqual
  | .andand => some .andand
  | .oror => some .oror
  | _ => Option.none

/-- The `_signed_to_unsigned` table: signed surface operators to their
unsigned IR opcode equivalent (`none` = not a signed operator). -/
def signedToUnsigned : BinaryOperationType → Option BinaryType
  | .divisionSigned => some .division
  | .moduloSigned => some .modulo
  | .lessSigned => some .less
  | .greaterSigned => some .greater
  | .rightShiftArithmetic => some .rightShift
  | _ => Option.none

/-- SlithIR instructions, in the shape this lowering constructs them.
Field order mirrors the Python constructor calls; `set_expression` /
`set_node` bookkeeping is not observable here and is omitted. For
`solidityCall` the callee's externally-defined return type is not modelled.
`tmpCall` / `tmpNewContract` carry the optional gas/value/salt modifiers that
the lowering copies onto them. -/
inductive Operation where
  | assignment (lvalue rvalue : Val) (variableReturnType : Option SolType)
  | binary (lvalue left right : Val) (op : BinaryType)
  | unary (lvalue value : Val) (op : UnaryOperationType)
  | typeConversion (lvalue value : Val) (ty : SolType)
  | index (lvalue left right : Val) (ty : Option SolType)
  | member (variable_ : Val) (memberName : String) (lvalue : Val)
  | initArray (initValues : List Val) (lvalue : Val)
  | unpack (lvalue tuple_ : Val) (idx : Nat)
  | internalCall (function_ : Val) (nbArguments : Nat) (lvalue : Val) (typeCall : String)
  | solidityCall (functionName : String) (nbArguments : Nat) (lvalue : Val)
      (arguments : List Val)
  | tmpCall (called : Val) (nbArguments : Nat) (lvalue : Val) (typeCall : String)
      (callGas callValue callSalt : Option Val)
  | argument (arg : Val)
  | return_ (value : SVal)
  | deleteIns (lvalue variable_ : Val)
  | tmpNewArray (depth : Nat) (arrayType : SolType) (lvalue : Val)
  | tmpNewContract (contractName : String) (lvalue : Val)
      (callValue callSalt : Option Val)
  | tmpNewElementaryType (ty : SolType) (lvalue : Val)
deriving DecidableEq, Repr

end Slither

namespace Slither

/-- Scratch store: the `expression.context["expressionToSlithIR"]` slots of
all nodes of the statement being lowered, keyed by per-node identity. -/
abbrev Store := List (Nat × SVal)

/-- Dictionary lookup on the store. -/
def storeLookup : Store → Nat → Option SVal
  | [], _ => Option.none
  | p :: rest, id => if p.1 = id then some p.2 else storeLookup rest id

/-- Python `del context[key]`. -/
def storeErase : Store → Nat → Store
  | [], _ => []
  | p :: rest, id => if p.1 = id then storeErase rest id else p :: storeErase rest id

/-- Python `context[key] = val` (overwrites any previous binding). -/
def storeInsert (s : Store) (id : Nat) (v : SVal) : Store :=
  (id, v) :: storeErase s id

/-- The lowering state: the scratch store, the ordered instruction buffer
`self._result`, and the fresh-variable counter standing for the per-node
indices of `TemporaryVariable` / `ReferenceVariable` / `TupleVariable`. -/
structure LowerState where
  store : Store
  result : List Operation
  counter : Nat
deriving DecidableEq

/-- Embeds `get(expression)`: read the node's scratch slot and delete it
("we delete the item to reduce memory use"); a missing slot is a KeyError. -/
def getVal (id : Nat) (st : LowerState) : Except String (SVal × LowerState) :=
  match storeLookup st.store id with
  | some v => .ok (v, { st with store := storeErase st.store id })
  | Option.none => .error "KeyError"

/-- Embeds `get_without_removing(expression)`. -/
def getWithoutRemoving (id : Nat) (st : LowerState) : Except String SVal :=
  match storeLookup st.store id with
  | some v => .ok v
  | Option.none => .error "KeyError"

/-- Embeds `set_val(expression, val)`. -/
def setVal (id : Nat) (v : SVal) (st : LowerState) : LowerState :=
  { st with store := storeInsert st.store id v }

/-- Embeds `self._result.append(op)`. -/
def appendOp (op : Operation) (st : LowerState) : LowerState :=
  { st with result := st.result ++ [op] }

/-- Allocate a fresh slot id (shared by Temporary/Reference/TupleVariable
creation; only freshness and creation order are observable). -/
def freshId (st : LowerState) : Nat × LowerState :=
  (st.counter, { st with counter := st.counter + 1 })

/-- Narrow a store value to a scalar at the points where the source treats it
as one (Python's dynamic typing would misbehave later on a list there). -/
def SVal.asVal : SVal → Except String Val
  | .v x => .ok x
  | .list _ => .error "TypeError: list where scalar expected"

/-- Embeds `convert_assignment(left, right, t, return_type)`: `=` becomes a direct
`Assignment`; every compound operator becomes the `Binary` instruction
computing `left <op> right` into `left`. (The surface operator enum is
closed, so the `SlithIRError` fallthrough of the source is unreachable.) -/
def convert_assignment (left right : Val) (t : AssignmentOperationType)
    (return_type : Option SolType) : Operation :=
  match t with
  | .assign => .assignment left right return_type
  | .assignOr => .binary left left right .or_
  | .assignCaret => .binary left left right .caret
  | .assignAnd => .binary left left right .and_
  | .assignLeftShift => .binary left left right .leftShift
  | .assignRightShift => .binary left left right .rightShift
  | .assignAddition => .binary left left right .addition
  | .assignSubtraction => .binary left left right .subtraction
  | .assignMultiplication => .binary left left right .multiplication
  | .assignDivision => .binary left left right .division
  | .assignModulo => .binary left left right .modulo

/-- Python `str.startswith`, over the character lists (kernel-evaluable
equivalent of `String.startsWith`). -/
def strStartsWith (s pre : String) : Bool :=
  List.isPrefixOf pre.data s.data

/-- Decimal digit value of a character. -/
def charDigit (c : Char) : Option Nat :=
  if 48 ≤ c.toNat ∧ c.toNat ≤ 57 then some (c.toNat - 48) else Option.none

/-- Accumulator loop of `strToNatOpt`. -/
def natOfCharsAux : List Char → Nat → Option Nat
  | [], acc => some acc
  | c :: cs, acc =>
      match charDigit c with
      | some d => natOfCharsAux cs (acc * 10 + d)
      | Option.none => Option.none

/-- Python `int(s)` on a digit string (kernel-evaluable equivalent of
`String.toNat?`), `none` when empty or non-numeric. -/
def strToNatOpt (s : String) : Option Nat :=
  match s.data with
  | [] => Option.none
  | _ => natOfCharsAux s.data 0

/-- The suffix of a type name after dropping `n` characters. -/
def strDrop (s : String) (n : Nat) : String :=
  String.mk (s.data.drop n)

/-- Modelled from the spec: the bit width behind an elementary integer type
name, used by the symbol table's "per-type min/max constant lookup for
elementary and enum types" (§6); `ElementaryType.min/.max` live outside
src/. A bare `uint`/`int` means 256 bits. -/
def elementaryBits (name : String) : Nat :=
  if strStartsWith name "uint" then (strToNatOpt (strDrop name 4)).getD 256
  else if strStartsWith name "int" then (strToNatOpt (strDrop name 3)).getD 256
  else 0

/-- Modelled from the spec: `ElementaryType.min` of the §6 symbol-table
min/max lookup (outside src/): 0 for unsigned, -2^(bits-1) for signed,
0 otherwise. -/
def elementaryMin (name : String) : Int :=
  if strStartsWith name "uint" then 0
  else if strStartsWith name "int" then -((2 : Int) ^ (elementaryBits name - 1))
  else 0

/-- Modelled from the spec: `ElementaryType.max` of the §6 symbol-table
min/max lookup (outside src/): 2^bits - 1 for unsigned, 2^(bits-1) - 1 for
signed, 1 for bool, 0 otherwise. -/
def elementaryMax (name : String) : Int :=
  if strStartsWith name "uint" then (2 : Int) ^ (elementaryBits name) - 1
  else if strStartsWith name "int" then (2 : Int) ^ (elementaryBits name - 1) - 1
  else if name = "bool" then 1
  else 0

/-- Modelled from the spec: `.min` on the type operand of `type(X).min`
(§6 lookup); only elementary types carry a numeric range here. -/
def solTypeMin : SolType → Int
  | .elementary n => elementaryMin n
  | _ => 0

/-- Modelled from the spec: `.max` on the type operand of `type(X).max`. -/
def solTypeMax : SolType → Int
  | .elementary n => elementaryMax n
  | _ => 0

/-- Modelled from the spec: `Enum.min` of the §6 min/max lookup (outside
src/): the first tag value, 0. -/
def enumMin (_values : List String) : Int := 0

/-- Modelled from the spec: `Enum.max` of the §6 min/max lookup (outside
src/): the last tag value, `len(values) - 1`. -/
def enumMax (values : List String) : Int := (values.length : Int) - 1

end Slither

namespace Slither

/-- The unpack slot index chosen for a destructuring target: its
`tuple_index` when it is a `LocalVariableInitFromTuple` carrying one,
otherwise its position in the target list. -/
def unpackIndex (l : Val) (idx : Nat) : Nat :=
  match l with
  | .localVariableInitFromTuple _ _ (some ti) => ti
  | _ => idx

/-- The `Unpack` instructions of the list-to-Tuple destructuring loop:
one per non-discarded target, in order. -/
def unpackOps (ls : List Val) (right : Val) : List Operation :=
  (List.enum ls).filterMap (fun p =>
    if p.2 = Val.none_ then Option.none
    else some (.unpack p.2 right (unpackIndex p.2 p.1)))

/-- The instructions of the list-to-list ("unbox assigment") loop: one
converted assignment per non-discarded target, in order. -/
def unboxOps (ls rs : List Val) (t : AssignmentOperationType)
    (return_type : Option SolType) : List Operation :=
  (List.zip ls rs).filterMap (fun p =>
    if p.1 = Val.none_ then Option.none
    else some (convert_assignment p.1 p.2 t return_type))

/-- Python `left.tuple_index` when `left` is a `LocalVariableInitFromTuple` whose
`tuple_index is not None`. -/
def lviftIndex : Val → Option Nat
  | .localVariableInitFromTuple _ _ (some ti) => ti
  | _ => Option.none

/-- Python `isinstance(right, TupleVariable)`. -/
def asTup : SVal → Option Val
  | .v (.tup i) => some (.tup i)
  | _ => Option.none

/-- Embeds `_post_assignement_operation`, over the node's scratch key `eid`, its
children's keys `lid`/`rid`, the surface operator and the recorded
`expression_return_type`. -/
def post_assignement_operation (eid lid rid : Nat) (t : AssignmentOperationType)
    (return_type : Option SolType) (st : LowerState) : Except String LowerState := do
  let (left, st) ← getVal lid st
  let (right, st) ← getVal rid st
  match left with
  | .list ls =>
    match right with
    | .list rs =>
        if ls.length = rs.length then
          pure (setVal eid (.v .none_)
            { st with result := st.result ++ unboxOps ls rs t return_type })
        else throw "AssertionError: len(left) == len(right)"
    | .v rv =>
        match rv with
        | .tup i =>
            pure (setVal eid (.v .none_)
              { st with result := st.result ++ unpackOps ls (.tup i) })
        | _ => throw "AssertionError: isinstance(right, TupleVariable)"
  | .v lv =>
    match lviftIndex lv, asTup right with
    | some ti, some tv =>
        pure (setVal eid (.v .none_) (appendOp (.unpack lv tv ti) st))
    | _, _ =>
      match right with
      | .list rs =>
          pure (setVal eid (.v lv) (appendOp (.initArray rs lv) st))
      | .v rv =>
          pure (setVal eid (.v lv)
            (appendOp (convert_assignment lv rv t return_type) st))

/-- Embeds `_attempt_constant_folding`: `folded` is the outcome of the external
`ConstantFolding` evaluator (`none` = it raised `NotConstant` or
`AttributeError`); `isSignedOp` is `expression.type in _signed_to_unsigned`
(always false at the unary call site, the surface unary operators being a
different enum from the binary ones). On success the node's value becomes a
`Constant` of the guessed type and nothing is emitted. -/
def attempt_constant_folding (folded : Option CFValue) (isSignedOp : Bool)
    (eid : Nat) (st : LowerState) : Option LowerState :=
  match folded with
  | Option.none => Option.none
  | some cv =>
      let new_type :=
        if isSignedOp then SolType.elementary "uint"
        else
          match cv with
          | .b _ => SolType.elementary "bool"
          | .i _ => SolType.elementary "int"
          | .s _ => SolType.elementary "string"
      some (setVal eid (.v (.const cv.str (some new_type) Option.none)) st)

/-- Embeds `_post_binary_operation`: constant folding first when
`generates_certik_ir`; then the signed lowering (sign-extend operands — the
arithmetic-right-shift count excepted — apply the unsigned opcode, convert
back to `uint256`) or the direct one-instruction lowering. -/
def post_binary_operation (generates_certik_ir : Bool) (folded : Option CFValue)
    (eid lid rid : Nat) (op : BinaryOperationType) (st : LowerState) :
    Except String LowerState := do
  match (if generates_certik_ir
         then attempt_constant_folding folded (signedToUnsigned op).isSome eid st
         else Option.none) with
  | some st' => pure st'
  | Option.none =>
    let (leftS, st) ← getVal lid st
    let left ← leftS.asVal
    let (rightS, st) ← getVal rid st
    let right ← rightS.asVal
    let (valId, st) := freshId st
    match signedToUnsigned op with
    | some uop =>
        let val := Val.temp valId (some (SolType.elementary "uint256"))
        let (nlId, st) := freshId st
        let new_left := Val.temp nlId (some (SolType.elementary "int256"))
        let st := appendOp (.typeConversion new_left left (SolType.elementary "int256")) st
        if op = .rightShiftArithmetic then
          let (nfId, st) := freshId st
          let new_final := Val.temp nfId Option.none
          let st := appendOp (.binary new_final new_left right uop) st
          let st := appendOp (.typeConversion val new_final (SolType.elementary "uint256")) st
          pure (setVal eid (.v val) st)
        else
          let (nrId, st) := freshId st
          let new_right := Val.temp nrId (some (SolType.elementary "int256"))
          let st := appendOp (.typeConversion new_right right (SolType.elementary "int256")) st
          let (nfId, st) := freshId st
          let new_final := Val.temp nfId Option.none
          let st := appendOp (.binary new_final new_left new_right uop) st
          let st := appendOp (.typeConversion val new_final (SolType.elementary "uint256")) st
          pure (setVal eid (.v val) st)
    | Option.none =>
        match binaryToBinary op with
        | some bop =>
            let val := Val.temp valId Option.none
            let st := appendOp (.binary val left right bop) st
            pure (setVal eid (.v val) st)
        | Option.none => throw "KeyError: _binary_to_binary"

/-- Embeds `_post_unary_operation`: constant folding first when
`generates_certik_ir`; then one rule per surface unary operator (the
`SlithIRError` fallthrough of the source is unreachable on the closed
enum). -/
def post_unary_operation (generates_certik_ir : Bool) (folded : Option CFValue)
    (eid vid : Nat) (op : UnaryOperationType) (st : LowerState) :
    Except String LowerState := do
  match (if generates_certik_ir
         then attempt_constant_folding folded false eid st
         else Option.none) with
  | some st' => pure st'
  | Option.none =>
    let (valueS, st) ← getVal vid st
    let value ← valueS.asVal
    match op with
    | .bang | .tild =>
        let (lId, st) := freshId st
        let lvalue := Val.temp lId Option.none
        let st := appendOp (.unary lvalue value op) st
        pure (setVal eid (.v lvalue) st)
    | .deleteOp =>
        let st := appendOp (.deleteIns value value) st
        pure (setVal eid (.v value) st)
    | .plusplusPre =>
        let st := appendOp
          (.binary value value (.const "1" value.typeOf Option.none) .addition) st
        pure (setVal eid (.v value) st)
    | .minusminusPre =>
        let st := appendOp
          (.binary value value (.const "1" value.typeOf Option.none) .subtraction) st
        pure (setVal eid (.v value) st)
    | .plusplusPost =>
        let (lId, st) := freshId st
        let lvalue := Val.temp lId Option.none
        let st := appendOp (.assignment lvalue value value.typeOf) st
        let st := appendOp
          (.binary value value (.const "1" value.typeOf Option.none) .addition) st
        pure (setVal eid (.v lvalue) st)
    | .minusminusPost =>
        let (lId, st) := freshId st
        let lvalue := Val.temp lId Option.none
        let st := appendOp (.assignment lvalue value value.typeOf) st
        let st := appendOp
          (.binary value value (.const "1" value.typeOf Option.none) .subtraction) st
        pure (setVal eid (.v lvalue) st)
    | .plusPre =>
        pure (setVal eid (.v value) st)
    | .minusPre =>
        let (lId, st) := freshId st
        let lvalue := Val.temp lId Option.none
        let st := appendOp
          (.binary lvalue (.const "0" value.typeOf Option.none) value .subtraction) st
        pure (setVal eid (.v lvalue) st)

end Slither

namespace Slither

/-- The typed expression tree produced upstream. Each node carries `eid`, a
per-node identity standing for the Python object identity that keys the
scratch store. `callExpr` records `type_call` and the optional
gas/value/salt modifier sub-expressions of the `{gas:, value:, salt:}`
syntax; `assignment` records the surface operator and
`expression_return_type`; `tupleExpr` entries may be absent (discarded
slots); `identifier` carries the bound symbol resolved by the front end. -/
inductive Expression where
  | identifier (eid : Nat) (value : Val)
  | literal (eid : Nat) (value : String) (ty : SolType) (subdenomination : Option String)
  | elementaryTypeName (eid : Nat) (ty : SolType)
  | binaryOp (eid : Nat) (op : BinaryOperationType) (left right : Expression)
  | unaryOp (eid : Nat) (op : UnaryOperationType) (operand : Expression)
  | assignment (eid : Nat) (left : Expression) (op : AssignmentOperationType)
      (returnType : Option SolType) (right : Expression)
  | callExpr (eid : Nat) (called : Expression) (typeCall : String)
      (arguments : List Expression)
      (callGas callValue callSalt : Option Expression)
  | memberAccess (eid : Nat) (expr : Expression) (memberName : String)
  | indexAccess (eid : Nat) (left right : Expression) (ty : Option SolType)
  | tupleExpr (eid : Nat) (expressions : List (Option Expression)) (isInlineArray : Bool)
  | typeConversionE (eid : Nat) (expr : Expression) (ty : SolType)
  | newArray (eid : Nat) (depth : Nat) (arrayType : SolType)
  | newContract (eid : Nat) (contractName : String) (callValue callSalt : Option Expression)
  | newElementaryType (eid : Nat) (ty : SolType)
  | conditional (eid : Nat) (condE thenE elseE : Expression)

/-- The scratch-store key of a node. -/
def Expression.eid : Expression → Nat
  | .identifier i _ => i
  | .literal i _ _ _ => i
  | .elementaryTypeName i _ => i
  | .binaryOp i _ _ _ => i
  | .unaryOp i _ _ => i
  | .assignment i _ _ _ _ => i
  | .callExpr i _ _ _ _ _ _ => i
  | .memberAccess i _ _ => i
  | .indexAccess i _ _ _ => i
  | .tupleExpr i _ _ => i
  | .typeConversionE i _ _ => i
  | .newArray i _ _ => i
  | .newContract i _ _ _ => i
  | .newElementaryType i _ => i
  | .conditional i _ _ _ => i

/-- Embeds `_post_identifier`: pass the bound symbol/value through. -/
def post_identifier (eid : Nat) (value : Val) (st : LowerState) :
    Except String LowerState :=
  .ok (setVal eid (.v value) st)

/-- Embeds `_post_literal`: a `Constant` carrying the literal's type and optional
unit suffix. -/
def post_literal (eid : Nat) (value : String) (ty : SolType)
    (subdenomination : Option String) (st : LowerState) :
    Except String LowerState :=
  .ok (setVal eid (.v (.const value (some ty) subdenomination)) st)

/-- Embeds `_post_elementary_type_name_expression`: the type itself. -/
def post_elementary_type_name (eid : Nat) (ty : SolType) (st : LowerState) :
    Except String LowerState :=
  .ok (setVal eid (.v (.typ ty)) st)

/-- The `type(X).min` / `type(X).max` resolution arm of
`_post_member_access`: a fresh Temporary assigned from a `Constant` carrying
the type's (or enum's) minimum/maximum value. (For the enum arm the
Assignment's `variable_return_type` is the `Enum` declaration; it stands
here as the enum's type.) -/
def typeMinMax (eid : Nat) (memberName : String) (cargs : List Expression)
    (st : LowerState) : Except String LowerState :=
  match cargs with
  | [targ] =>
    let (valId, st) := freshId st
    let val := Val.temp valId Option.none
    match targ with
    | .elementaryTypeName _ t =>
        let c := Val.const
          (toString (if memberName = "min" then solTypeMin t else solTypeMax t))
          (some t) Option.none
        .ok (setVal eid (.v val) (appendOp (.assignment val c (some t)) st))
    | .identifier _ (.enumVal en vs) =>
        let c := Val.const
          (toString (if memberName = "min" then enumMin vs else enumMax vs))
          Option.none Option.none
        .ok (setVal eid (.v val)
          (appendOp (.assignment val c (some (SolType.enumT en))) st))
    | .identifier _ _ => .error "AssertionError: isinstance(type_found, Enum)"
    | _ => .error "AssertionError: type expression kind"
  | _ => .error "AssertionError: len(expression.expression.arguments) == 1"

/-- Python `isinstance(expr, TypeAlias) and member_name in [wrap, unwrap]`. -/
def isWrapUnwrapAlias (expr : Val) (memberName : String) : Bool :=
  match expr with
  | .typeAliasVal _ _ => memberName = "wrap" ∨ memberName = "unwrap"
  | _ => false

/-- The `Contract` member lookups of `_post_member_access`: first the file
scope's user-defined types (yielding the `TypeAlias`), then the contract's
custom errors. -/
def contractMemberLookup (expr : Val) (memberName : String) : Option Val :=
  match expr with
  | .contractVal _ udts errs =>
      match List.find? (fun p => p.1 = memberName) udts with
      | some p => some (.typeAliasVal p.2.1 p.2.2)
      | Option.none =>
          if List.elem memberName errs then some (.customErrorVal memberName)
          else Option.none
  | _ => Option.none

/-- Embeds `_post_member_access` after the `type(X).min/max` pattern was ruled out:
the `.balance`/`.code`/`.codehash` built-in call on an address-typed
variable, the wrap/unwrap pass-through, the contract member resolutions, and
the default named-`Member` reference. -/
def member_access_rest (eid : Nat) (expr : Val) (memberName : String)
    (st : LowerState) : Except String LowerState :=
  if expr.isVariable ∧ expr.typeOf = some (SolType.elementary "address")
     ∧ (memberName = "balance" ∨ memberName = "code" ∨ memberName = "codehash") then
    let (valId, st) := freshId st
    let val := Val.temp valId Option.none
    let st := appendOp (.solidityCall (memberName ++ "(address)") 1 val [expr]) st
    .ok (setVal eid (.v val) st)
  else if isWrapUnwrapAlias expr memberName then
    .ok (setVal eid (.v expr) st)
  else
    match contractMemberLookup expr memberName with
    | some v => .ok (setVal eid (.v v) st)
    | Option.none =>
        let (valId, st) := freshId st
        let val := Val.ref valId
        let st := appendOp (.member expr memberName val) st
        .ok (setVal eid (.v val) st)

/-- Embeds `_post_member_access`: destructive read of the child's slot, then the
fixed-priority resolution: (a) the `type(X).min/max` pattern detected on the
nested AST, (b)–(e) the remaining arms (`member_access_rest`). -/
def post_member_access (eid : Nat) (childExpr : Expression) (memberName : String)
    (st : LowerState) : Except String LowerState := do
  let (exprS, st) ← getVal (Expression.eid childExpr) st
  match childExpr with
  | .callExpr _ (.identifier _ cv) _ cargs _ _ _ =>
      if (memberName = "min" ∨ memberName = "max")
         ∧ cv = Val.solidityFunction "type()" then
        typeMinMax eid memberName cargs st
      else do
        let expr ← exprS.asVal
        member_access_rest eid expr memberName st
  | _ => do
      let expr ← exprS.asVal
      member_access_rest eid expr memberName st

/-- Destructive reads of the already-lowered argument values, in source
order (`[get(a) for a in expression.arguments if a]`). -/
def getArgVals (ids : List Nat) (st : LowerState) :
    Except String (List Val × LowerState) :=
  match ids with
  | [] => .ok ([], st)
  | i :: rest => do
      let (vS, st) ← getVal i st
      let v ← vS.asVal
      let (vs, st) ← getArgVals rest st
      pure (v :: vs, st)

/-- Destructive read of an optional gas/value/salt modifier's value. -/
def readOptModifier (oe : Option Expression) (st : LowerState) :
    Except String (Option Val × LowerState) :=
  match oe with
  | Option.none => .ok (Option.none, st)
  | some e => do
      let (vS, st) ← getVal (Expression.eid e) st
      let v ← vS.asVal
      pure (some v, st)

/-- The yul pseudo-function arms and the final unresolved-call arm of
`_post_call_expression` (everything after the `Function` and
wrap/unwrap `TypeAlias` cases): `caller()`, `origin()`,
`extcodesize(uint256)`, `selfbalance()`, `address()`, `callvalue()`
synthesize direct accesses; anything else becomes a placeholder `TmpCall`
carrying the gas/value/salt modifiers read from the `{gas:, value:, salt:}`
syntax. (The Python passes the raw string `"uint256"` as the assignments'
return type; it stands here as the type of that name.) -/
def call_rest (eid : Nat) (called : Val) (typeCall : String) (args : List Val)
    (gasE valueE saltE : Option Expression) (st : LowerState) :
    Except String LowerState := do
  if called.nameOf = some "caller()" then
    let (i, st) := freshId st
    let val := Val.temp i Option.none
    let st := appendOp (.assignment val (.solidityVariableComposed "msg.sender")
      (some (.elementary "uint256"))) st
    pure (setVal eid (.v val) st)
  else if called.nameOf = some "origin()" then
    let (i, st) := freshId st
    let val := Val.temp i Option.none
    let st := appendOp (.assignment val (.solidityVariableComposed "tx.origin")
      (some (.elementary "uint256"))) st
    pure (setVal eid (.v val) st)
  else if called.nameOf = some "extcodesize(uint256)" then
    match args with
    | a0 :: _ =>
        let (i, st) := freshId st
        let val := Val.ref i
        let st := appendOp (.member a0 "codesize" val) st
        pure (setVal eid (.v val) st)
    | [] => throw "IndexError: args[0]"
  else if called.nameOf = some "selfbalance()" then
    let (i, st) := freshId st
    let val := Val.temp i (some (SolType.elementary "address"))
    let st := appendOp (.typeConversion val (.solidityVariable "this")
      (SolType.elementary "address")) st
    let (i1, st) := freshId st
    let val1 := Val.ref i1
    let st := appendOp (.member val "balance" val1) st
    pure (setVal eid (.v val1) st)
  else if called.nameOf = some "address()" then
    let (i, st) := freshId st
    let val := Val.temp i (some (SolType.elementary "address"))
    let st := appendOp (.typeConversion val (.solidityVariable "this")
      (SolType.elementary "address")) st
    pure (setVal eid (.v val) st)
  else if called.nameOf = some "callvalue()" then
    let (i, st) := freshId st
    let val := Val.temp i Option.none
    let st := appendOp (.assignment val (.solidityVariableComposed "msg.value")
      (some (.elementary "uint256"))) st
    pure (setVal eid (.v val) st)
  else
    let (val, st) :=
      if strStartsWith typeCall "tuple(" ∧ typeCall ≠ "tuple()" then
        let (i, st) := freshId st
        (Val.tup i, st)
      else
        let (i, st) := freshId st
        (Val.temp i Option.none, st)
    let (g, st) ← readOptModifier gasE st
    let (v, st) ← readOptModifier valueE st
    let (s, st) ← readOptModifier saltE st
    let st := appendOp (.tmpCall called args.length val typeCall g v s) st
    pure (setVal eid (.v val) st)

/-- Embeds `_post_call_expression`: destructive reads of callee and arguments, one
`Argument` marker per argument, then the internal-call arm (callee is a
declared `Function`), the wrap/unwrap `TypeAlias` conversion arm, or
`call_rest`. (`TemporaryVariable`'s `location` keyword, taken from the
callee's declared return, is not modelled.) -/
def post_call_expression (eid : Nat) (calledExpr : Expression) (typeCall : String)
    (argExprs : List Expression) (callGas callValue callSalt : Option Expression)
    (st : LowerState) : Except String LowerState := do
  let (calledS, st) ← getVal (Expression.eid calledExpr) st
  let called ← calledS.asVal
  let (args, st) ← getArgVals (argExprs.map Expression.eid) st
  let st := { st with result := st.result ++ args.map Operation.argument }
  match called with
  | .functionVal fn rets =>
      if strStartsWith typeCall "tuple(" ∧ typeCall ≠ "tuple()" then
        let (i, st) := freshId st
        let val := Val.tup i
        let st := appendOp (.internalCall (.functionVal fn rets) args.length val typeCall) st
        pure (setVal eid (.v val) st)
      else if rets.length ≤ 1 then
        let (i, st) := freshId st
        let val := Val.temp i Option.none
        let st := appendOp (.internalCall (.functionVal fn rets) args.length val typeCall) st
        pure (setVal eid (.v val) st)
      else throw "AssertionError: len(called.returns) <= 1"
  | .typeAliasVal an ut =>
      match calledExpr, args with
      | .memberAccess _ _ mn, [a0] =>
          if mn = "wrap" ∨ mn = "unwrap" then
            let dest_type := if mn = "wrap" then SolType.alias an ut else ut
            let (i, st) := freshId st
            let val := Val.temp i (some dest_type)
            let st := appendOp (.typeConversion val a0 dest_type) st
            pure (setVal eid (.v val) st)
          else
            call_rest eid (.typeAliasVal an ut) typeCall args callGas callValue callSalt st
      | _, _ =>
          call_rest eid (.typeAliasVal an ut) typeCall args callGas callValue callSalt st
  | _ => call_rest eid called typeCall args callGas callValue callSalt st

/-- Embeds `_post_index_access`: the `abi.decode`-style derived array type when the
left value is a `Type` (the right must be a `Constant`); otherwise an
`Index` reference, materializing an anonymous in-place array literal first
when the left value is a list. -/
def post_index_access (eid lid rid : Nat) (ty : Option SolType) (st : LowerState) :
    Except String LowerState := do
  let (leftS, st) ← getVal lid st
  let (rightS, st) ← getVal rid st
  match leftS with
  | .v (.typ t) =>
      match rightS with
      | .v (.const cv _ _) => pure (setVal eid (.v (.typ (SolType.array t cv))) st)
      | _ => throw "AssertionError: isinstance(right, Constant)"
  | .list ls =>
      let right ← rightS.asVal
      let (refI, st) := freshId st
      let val := Val.ref refI
      let (tmpI, st) := freshId st
      let init_array_val := Val.temp tmpI Option.none
      let st := appendOp (.initArray ls init_array_val) st
      let st := appendOp (.index val init_array_val right ty) st
      pure (setVal eid (.v val) st)
  | .v left =>
      let right ← rightS.asVal
      let (refI, st) := freshId st
      let val := Val.ref refI
      let st := appendOp (.index val left right ty) st
      pure (setVal eid (.v val) st)

/-- Destructive reads of a tuple expression's element values, `Val.none_`
standing for the Python `None` recorded at a discarded slot. -/
def getTupleVals (exprs : List (Option Expression)) (st : LowerState) :
    Except String (List Val × LowerState) :=
  match exprs with
  | [] => .ok ([], st)
  | Option.none :: rest => do
      let (vs, st) ← getTupleVals rest st
      pure (Val.none_ :: vs, st)
  | some e :: rest => do
      let (vS, st) ← getVal (Expression.eid e) st
      let v ← vS.asVal
      let (vs, st) ← getTupleVals rest st
      pure (v :: vs, st)

/-- Embeds `_post_tuple_expression`: inline arrays materialize through `InitArray`
into a fresh Temporary; a one-element tuple unwraps; otherwise the ordered
element list is recorded for a parent assignment. -/
def post_tuple_expression (eid : Nat) (exprs : List (Option Expression))
    (isInlineArray : Bool) (st : LowerState) : Except String LowerState := do
  let (vals, st) ← getTupleVals exprs st
  if isInlineArray then
    let (i, st) := freshId st
    let temp_var := Val.temp i Option.none
    let st := appendOp (.initArray vals temp_var) st
    pure (setVal eid (.v temp_var) st)
  else
    match vals with
    | [v1] => pure (setVal eid (.v v1) st)
    | _ => pure (setVal eid (.list vals) st)

/-- Embeds `_post_type_conversion`: always a fresh Temporary via an explicit
conversion instruction typed to the destination type. -/
def post_type_conversion (eid cid : Nat) (ty : SolType) (st : LowerState) :
    Except String LowerState := do
  let (exprS, st) ← getVal cid st
  let expr ← exprS.asVal
  let (i, st) := freshId st
  let val := Val.temp i (some ty)
  let st := appendOp (.typeConversion val expr ty) st
  pure (setVal eid (.v val) st)

/-- Embeds `_post_new_array`. -/
def post_new_array (eid : Nat) (depth : Nat) (arrayType : SolType)
    (st : LowerState) : Except String LowerState :=
  let (i, st) := freshId st
  let val := Val.temp i Option.none
  let st := appendOp (.tmpNewArray depth arrayType val) st
  .ok (setVal eid (.v val) st)

/-- Embeds `_post_new_contract`: a placeholder construction carrying the optional
value/salt modifiers read from their slots. -/
def post_new_contract (eid : Nat) (contractName : String)
    (valueE saltE : Option Expression) (st : LowerState) :
    Except String LowerState := do
  let (i, st) := freshId st
  let val := Val.temp i Option.none
  let (cv, st) ← readOptModifier valueE st
  let (cs, st) ← readOptModifier saltE st
  let st := appendOp (.tmpNewContract contractName val cv cs) st
  pure (setVal eid (.v val) st)

/-- Embeds `_post_new_elementary_type`. -/
def post_new_elementary_type (eid : Nat) (ty : SolType) (st : LowerState) :
    Except String LowerState :=
  let (i, st) := freshId st
  let val := Val.temp i Option.none
  let st := appendOp (.tmpNewElementaryType ty val) st
  .ok (setVal eid (.v val) st)

end Slither

namespace Slither

/-- Modelled from the spec: the generic post-order `ExpressionVisitor` walk
(its base class lives outside src/): "children are lowered first (their
node-to-value slots populated), then a node-type-specific rule runs" (§4.1),
left-to-right in source order, callee before arguments before the optional
gas/value/salt modifiers. `fuel` bounds the recursion depth; any fuel at
least the tree height succeeds. `gci` is the analysis unit's
`generates_certik_ir` flag and `fold` the per-node outcome of the external
`ConstantFolding` evaluator. The ternary rule (`_post_conditional_expression`)
fails fatally. -/
def visitExpr : Nat → Bool → (Nat → Option CFValue) → Expression → LowerState →
    Except String LowerState
  | 0, _, _, _, _ => .error "ExpressionVisitor: recursion limit"
  | fuel + 1, gci, fold, e, st =>
    match e with
    | .identifier eid v => post_identifier eid v st
    | .literal eid v ty sd => post_literal eid v ty sd st
    | .elementaryTypeName eid ty => post_elementary_type_name eid ty st
    | .binaryOp eid op l r => do
        let st ← visitExpr fuel gci fold l st
        let st ← visitExpr fuel gci fold r st
        post_binary_operation gci (fold eid) eid (Expression.eid l) (Expression.eid r) op st
    | .unaryOp eid op operand => do
        let st ← visitExpr fuel gci fold operand st
        post_unary_operation gci (fold eid) eid (Expression.eid operand) op st
    | .assignment eid l t rt r => do
        let st ← visitExpr fuel gci fold l st
        let st ← visitExpr fuel gci fold r st
        post_assignement_operation eid (Expression.eid l) (Expression.eid r) t rt st
    | .callExpr eid called tc args g v s => do
        let st ← visitExpr fuel gci fold called st
        let st ← args.foldlM (fun st a => visitExpr fuel gci fold a st) st
        let st ← match g with
          | some ge => visitExpr fuel gci fold ge st
          | Option.none => pure st
        let st ← match v with
          | some ve => visitExpr fuel gci fold ve st
          | Option.none => pure st
        let st ← match s with
          | some se => visitExpr fuel gci fold se st
          | Option.none => pure st
        post_call_expression eid called tc args g v s st
    | .memberAccess eid child mn => do
        let st ← visitExpr fuel gci fold child st
        post_member_access eid child mn st
    | .indexAccess eid l r ty => do
        let st ← visitExpr fuel gci fold l st
        let st ← visitExpr fuel gci fold r st
        post_index_access eid (Expression.eid l) (Expression.eid r) ty st
    | .tupleExpr eid exprs inline => do
        let st ← exprs.foldlM (fun st oe =>
          match oe with
          | some e2 => visitExpr fuel gci fold e2 st
          | Option.none => pure st) st
        post_tuple_expression eid exprs inline st
    | .typeConversionE eid child ty => do
        let st ← visitExpr fuel gci fold child st
        post_type_conversion eid (Expression.eid child) ty st
    | .newArray eid d at_ => post_new_array eid d at_ st
    | .newContract eid cn v s => do
        let st ← match v with
          | some ve => visitExpr fuel gci fold ve st
          | Option.none => pure st
        let st ← match s with
          | some se => visitExpr fuel gci fold se st
          | Option.none => pure st
        post_new_contract eid cn v s st
    | .newElementaryType eid ty => post_new_elementary_type eid ty st
    | .conditional _ c t e2 => do
        let st ← visitExpr fuel gci fold c st
        let st ← visitExpr fuel gci fold t st
        let _ ← visitExpr fuel gci fold e2 st
        .error "Ternary operator are not convertible to SlithIR"

/-- Embeds `ExpressionToSlithIR.__init__`: starting from an empty scratch store and
empty instruction buffer, lower the statement's expression; when the owning
node is a function-return point, destructively read the root's value and
append the closing `Return`. The final state carries the node's finished
instruction list (`result()`) and whatever scratch entries remain. -/
def expressionToSlithIR (fuel : Nat) (generates_certik_ir : Bool)
    (fold : Nat → Option CFValue) (nodeIsReturn : Bool) (e : Expression) :
    Except String LowerState := do
  let st ← visitExpr fuel generates_certik_ir fold e ⟨[], [], 0⟩
  if nodeIsReturn then
    let (vS, st) ← getVal (Expression.eid e) st
    pure (appendOp (.return_ vS) st)
  else
    pure st

/-- The base `Call` operation (src/slither/slithir/operations/call.py):
optional argument names and the argument list. -/
structure CallOperation where
  names : Option (List String)
  arguments : List Val
deriving DecidableEq

/-- Embeds `Call.can_reenter(self, callstack=None)`: the base implementation
ignores everything and returns `False`. -/
def CallOperation.can_reenter (_self : CallOperation)
    (_callstack : Option (List Val)) : Bool :=
  false

/-- Embeds `Call.can_send_eth(self)`: the base implementation returns `False`. -/
def CallOperation.can_send_eth (_self : CallOperation) : Bool :=
  false

end Slither

namespace Slither

/-- Decidable equality for lowering outcomes. -/
instance (ε α : Type) [DecidableEq ε] [DecidableEq α] : DecidableEq (Except ε α) := fun x y =>
  match x, y with
  | .ok a, .ok b =>
      if h : a = b then isTrue (by rw [h]) else isFalse (fun hh => h (Except.ok.inj hh))
  | .error a, .error b =>
      if h : a = b then isTrue (by rw [h]) else isFalse (fun hh => h (Except.error.inj hh))
  | .ok _, .error _ => isFalse (fun hh => Except.noConfusion hh)
  | .error _, .ok _ => isFalse (fun hh => Except.noConfusion hh)

/-- Is a recorded store value a `Constant`? -/
def SVal.isConstVal : SVal → Bool
  | .v (.const _ _ _) => true
  | _ => false

/-- The constant-folding type priority in the spec's words: "unsigned result
type for signed comparison/shift operators, boolean type for boolean-valued
operators, numeric type otherwise, string type as fallback" — stated
independently of the source's `_attempt_constant_folding` for comparison
with it. -/
def foldedTypeSpec (isSignedOp : Bool) (cv : CFValue) : SolType :=
  if isSignedOp then .elementary "uint"
  else
    match cv with
    | .b _ => .elementary "bool"
    | .i _ => .elementary "int"
    | .s _ => .elementary "string"

/-- Is an instruction an internal call? -/
def Operation.isInternalCall : Operation → Bool
  | .internalCall _ _ _ _ => true
  | _ => false

/-- A callee value that reaches the unresolved-call placeholder arm of
`_post_call_expression`: not a declared `Function`, not a `TypeAlias`
(wrap/unwrap), and not named as one of the yul pseudo-functions. -/
def isUnresolvedCallee (called : Val) : Bool :=
  (match called with
   | .functionVal _ _ => false
   | .typeAliasVal _ _ => false
   | _ => true)
  && !(called.nameOf = some "caller()" || called.nameOf = some "origin()"
     || called.nameOf = some "extcodesize(uint256)" || called.nameOf = some "selfbalance()"
     || called.nameOf = some "address()" || called.nameOf = some "callvalue()")

end Slither

namespace Slither

theorem storeLookup_erase_ne (s : Store) (id j : Nat) (h : ¬ j = id) :
    storeLookup (storeErase s id) j = storeLookup s j := by
  have h2 : ¬ id = j := fun hh => h hh.symm
  induction s with
  | nil => rfl
  | cons p rest ih =>
      by_cases hp : p.1 = id
      · have hpj : ¬ p.1 = j := fun hh => h (hh ▸ hp)
        simp [storeErase, storeLookup, hp, hpj, h2, ih]
      · by_cases hj : p.1 = j
        · simp [storeErase, storeLookup, hp, hj, h]
        · simp [storeErase, storeLookup, hp, hj, ih]

theorem storeLookup_insert_self (s : Store) (id : Nat) (v : SVal) :
    storeLookup (storeInsert s id v) id = some v := by
  simp [storeInsert, storeLookup]

theorem storeLookup_erase_self (s : Store) (id : Nat) :
    storeLookup (storeErase s id) id = Option.none := by
  induction s with
  | nil => rfl
  | cons p rest ih =>
      by_cases hp : p.1 = id
      · simp [storeErase, storeLookup, hp, ih]
      · simp [storeErase, storeLookup, hp, ih]

end Slither

namespace Slither

/-- C2: for a signed-comparison binary operation (signed less-than or signed
greater-than) with constant folding disabled or inapplicable, lowering emits
exactly four instructions: sign-extending `TypeConversion`s of the left and
right operands to the full-width signed type `int256`, one `Binary`
instruction carrying the unsigned-opcode equivalent of the operator (the IR
opcode set of `BinaryType` has no signed opcodes at all), and one
`TypeConversion` of the result back to the unsigned full-width type
`uint256`, which is also the recorded value. -/
theorem C2_signed_comparison_four_instructions (gci : Bool) (folded : Option CFValue)
    (eid lid rid : Nat) (op : BinaryOperationType) (st : LowerState)
    (l r : Val) (uop : BinaryType)
    (hfold : gci = false ∨ folded = Option.none)
    (hop : op = BinaryOperationType.lessSigned ∨ op = BinaryOperationType.greaterSigned)
    (huop : signedToUnsigned op = some uop)
    (hl : storeLookup st.store lid = some (SVal.v l))
    (hr : storeLookup st.store rid = some (SVal.v r))
    (hne : ¬ rid = lid) :
    ∃ st', post_binary_operation gci folded eid lid rid op st = Except.ok st'
      ∧ st'.result = st.result ++
          [Operation.typeConversion (Val.temp (st.counter + 1) (some (SolType.elementary "int256"))) l (SolType.elementary "int256"),
           Operation.typeConversion (Val.temp (st.counter + 2) (some (SolType.elementary "int256"))) r (SolType.elementary "int256"),
           Operation.binary (Val.temp (st.counter + 3) Option.none)
             (Val.temp (st.counter + 1) (some (SolType.elementary "int256")))
             (Val.temp (st.counter + 2) (some (SolType.elementary "int256"))) uop,
           Operation.typeConversion (Val.temp st.counter (some (SolType.elementary "uint256")))
             (Val.temp (st.counter + 3) Option.none) (SolType.elementary "uint256")]
      ∧ storeLookup st'.store eid
          = some (SVal.v (Val.temp st.counter (some (SolType.elementary "uint256")))) := by
  have hrs : storeLookup (storeErase st.store lid) rid = some (SVal.v r) :=
    (storeLookup_erase_ne _ _ _ hne).trans hr
  have hnosh : ¬ op = BinaryOperationType.rightShiftArithmetic := by
    rcases hop with h | h <;> simp [h]
  have hfold2 : (if gci then attempt_constant_folding folded (signedToUnsigned op).isSome eid st
      else Option.none) = Option.none := by
    rcases hfold with h | h <;> simp [h, attempt_constant_folding]
  refine ⟨⟨storeInsert (storeErase (storeErase st.store lid) rid) eid
        (SVal.v (Val.temp st.counter (some (SolType.elementary "uint256")))),
      st.result ++
        [Operation.typeConversion (Val.temp (st.counter + 1) (some (SolType.elementary "int256"))) l (SolType.elementary "int256"),
         Operation.typeConversion (Val.temp (st.counter + 2) (some (SolType.elementary "int256"))) r (SolType.elementary "int256"),
         Operation.binary (Val.temp (st.counter + 3) Option.none)
           (Val.temp (st.counter + 1) (some (SolType.elementary "int256")))
           (Val.temp (st.counter + 2) (some (SolType.elementary "int256"))) uop,
         Operation.typeConversion (Val.temp st.counter (some (SolType.elementary "uint256")))
           (Val.temp (st.counter + 3) Option.none) (SolType.elementary "uint256")],
      st.counter + 4⟩, ?_, rfl, storeLookup_insert_self _ _ _⟩
  simp only [post_binary_operation, hfold2]
  simp [getVal, hl, hrs, SVal.asVal, Bind.bind, Except.bind, Except.instMonad, freshId,
    appendOp, setVal, huop, hnosh]
  norm_num [Except.pure]

/-- C2 witness: lowering `x < y` (signed) at a concrete state. -/
theorem C2_signed_comparison_witness :
    (storeLookup ([(1, SVal.v (Val.localVariable "x" (SolType.elementary "int256"))),
        (2, SVal.v (Val.localVariable "y" (SolType.elementary "int256")))] : Store) 1
      = some (SVal.v (Val.localVariable "x" (SolType.elementary "int256"))))
    ∧ ∃ st', post_binary_operation false Option.none 0 1 2 BinaryOperationType.lessSigned
        ⟨[(1, SVal.v (Val.localVariable "x" (SolType.elementary "int256"))),
          (2, SVal.v (Val.localVariable "y" (SolType.elementary "int256")))], [], 0⟩
        = Except.ok st'
      ∧ st'.result = [] ++
          [Operation.typeConversion (Val.temp 1 (some (SolType.elementary "int256")))
             (Val.localVariable "x" (SolType.elementary "int256")) (SolType.elementary "int256"),
           Operation.typeConversion (Val.temp 2 (some (SolType.elementary "int256")))
             (Val.localVariable "y" (SolType.elementary "int256")) (SolType.elementary "int256"),
           Operation.binary (Val.temp 3 Option.none)
             (Val.temp 1 (some (SolType.elementary "int256")))
             (Val.temp 2 (some (SolType.elementary "int256"))) BinaryType.less,
           Operation.typeConversion (Val.temp 0 (some (SolType.elementary "uint256")))
             (Val.temp 3 Option.none) (SolType.elementary "uint256")]
      ∧ storeLookup st'.store 0
          = some (SVal.v (Val.temp 0 (some (SolType.elementary "uint256")))) :=
  ⟨rfl,
    C2_signed_comparison_four_instructions false Option.none 0 1 2
      BinaryOperationType.lessSigned
      ⟨[(1, SVal.v (Val.localVariable "x" (SolType.elementary "int256"))),
        (2, SVal.v (Val.localVariable "y" (SolType.elementary "int256")))], [], 0⟩
      (Val.localVariable "x" (SolType.elementary "int256"))
      (Val.localVariable "y" (SolType.elementary "int256"))
      BinaryType.less (Or.inl rfl) (Or.inl rfl) rfl rfl rfl (by decide)⟩

/-- C3: for an arithmetic-right-shift binary operation that is lowered (not
constant-folded), the left operand is wrapped in a sign-extend
`TypeConversion` to `int256` before the `Binary` instruction, while the
right operand (the shift count) appears in the `Binary` instruction
unchanged — exactly three instructions, no conversion of the right
operand. -/
theorem C3_arshift_right_operand_unchanged (gci : Bool) (folded : Option CFValue)
    (eid lid rid : Nat) (st : LowerState) (l r : Val)
    (hfold : gci = false ∨ folded = Option.none)
    (hl : storeLookup st.store lid = some (SVal.v l))
    (hr : storeLookup st.store rid = some (SVal.v r))
    (hne : ¬ rid = lid) :
    ∃ st', post_binary_operation gci folded eid lid rid
        BinaryOperationType.rightShiftArithmetic st = Except.ok st'
      ∧ st'.result = st.result ++
          [Operation.typeConversion (Val.temp (st.counter + 1) (some (SolType.elementary "int256"))) l (SolType.elementary "int256"),
           Operation.binary (Val.temp (st.counter + 2) Option.none)
             (Val.temp (st.counter + 1) (some (SolType.elementary "int256")))
             r BinaryType.rightShift,
           Operation.typeConversion (Val.temp st.counter (some (SolType.elementary "uint256")))
             (Val.temp (st.counter + 2) Option.none) (SolType.elementary "uint256")]
      ∧ storeLookup st'.store eid
          = some (SVal.v (Val.temp st.counter (some (SolType.elementary "uint256")))) := by
  have hrs : storeLookup (storeErase st.store lid) rid = some (SVal.v r) :=
    (storeLookup_erase_ne _ _ _ hne).trans hr
  have hfold2 : (if gci then attempt_constant_folding folded
      (signedToUnsigned BinaryOperationType.rightShiftArithmetic).isSome eid st
      else Option.none) = Option.none := by
    rcases hfold with h | h <;> simp [h, attempt_constant_folding]
  refine ⟨⟨storeInsert (storeErase (storeErase st.store lid) rid) eid
        (SVal.v (Val.temp st.counter (some (SolType.elementary "uint256")))),
      st.result ++
        [Operation.typeConversion (Val.temp (st.counter + 1) (some (SolType.elementary "int256"))) l (SolType.elementary "int256"),
         Operation.binary (Val.temp (st.counter + 2) Option.none)
           (Val.temp (st.counter + 1) (some (SolType.elementary "int256")))
           r BinaryType.rightShift,
         Operation.typeConversion (Val.temp st.counter (some (SolType.elementary "uint256")))
           (Val.temp (st.counter + 2) Option.none) (SolType.elementary "uint256")],
      st.counter + 3⟩, ?_, rfl, storeLookup_insert_self _ _ _⟩
  simp only [post_binary_operation, hfold2]
  simp [getVal, hl, hrs, SVal.asVal, Bind.bind, Except.bind, Except.instMonad, freshId,
    appendOp, setVal, signedToUnsigned]
  norm_num [Except.pure]

/-- C3 witness: lowering `x >>> y` at a concrete state. -/
theorem C3_arshift_witness :
    (storeLookup ([(1, SVal.v (Val.localVariable "x" (SolType.elementary "int256"))),
        (2, SVal.v (Val.localVariable "y" (SolType.elementary "int256")))] : Store) 2
      = some (SVal.v (Val.localVariable "y" (SolType.elementary "int256"))))
    ∧ ∃ st', post_binary_operation false Option.none 0 1 2
        BinaryOperationType.rightShiftArithmetic
        ⟨[(1, SVal.v (Val.localVariable "x" (SolType.elementary "int256"))),
          (2, SVal.v (Val.localVariable "y" (SolType.elementary "int256")))], [], 0⟩
        = Except.ok st'
      ∧ st'.result = [] ++
          [Operation.typeConversion (Val.temp 1 (some (SolType.elementary "int256")))
             (Val.localVariable "x" (SolType.elementary "int256")) (SolType.elementary "int256"),
           Operation.binary (Val.temp 2 Option.none)
             (Val.temp 1 (some (SolType.elementary "int256")))
             (Val.localVariable "y" (SolType.elementary "int256")) BinaryType.rightShift,
           Operation.typeConversion (Val.temp 0 (some (SolType.elementary "uint256")))
             (Val.temp 2 Option.none) (SolType.elementary "uint256")]
      ∧ storeLookup st'.store 0
          = some (SVal.v (Val.temp 0 (some (SolType.elementary "uint256")))) :=
  ⟨rfl,
    C3_arshift_right_operand_unchanged false Option.none 0 1 2
      ⟨[(1, SVal.v (Val.localVariable "x" (SolType.elementary "int256"))),
        (2, SVal.v (Val.localVariable "y" (SolType.elementary "int256")))], [], 0⟩
      (Val.localVariable "x" (SolType.elementary "int256"))
      (Val.localVariable "y" (SolType.elementary "int256"))
      (Or.inl rfl) rfl rfl (by decide)⟩

end Slither

namespace Slither

theorem unpackIndex_of_none (l : Val) (idx : Nat) (h : lviftIndex l = Option.none) :
    unpackIndex l idx = idx := by
  cases l <;> simp [lviftIndex, unpackIndex] at *
  case localVariableInitFromTuple n ty ti =>
    cases ti <;> simp_all [lviftIndex, unpackIndex]

/-- C4: for a tuple assignment `(a, , c) = f()` — left a target list with a
discarded middle slot, right a single Tuple value — the emitted `Unpack`
instructions select slot indices 0 and 2 (the discarded slot consumes index
1), never 0 and 1; the assignment records `None` as its value. The targets
here are plain variables (no explicit `tuple_index`), so each target's
declared slot index is its position in the list. -/
theorem C4_unpack_slot_indices (eid lid rid ti : Nat) (t : AssignmentOperationType)
    (rt : Option SolType) (st : LowerState) (a c : Val)
    (ha : ¬ a = Val.none_) (hc : ¬ c = Val.none_)
    (ha2 : lviftIndex a = Option.none) (hc2 : lviftIndex c = Option.none)
    (hl : storeLookup st.store lid = some (SVal.list [a, Val.none_, c]))
    (hr : storeLookup st.store rid = some (SVal.v (Val.tup ti)))
    (hne : ¬ rid = lid) :
    ∃ st', post_assignement_operation eid lid rid t rt st = Except.ok st'
      ∧ st'.result = st.result ++
          [Operation.unpack a (Val.tup ti) 0, Operation.unpack c (Val.tup ti) 2]
      ∧ storeLookup st'.store eid = some (SVal.v Val.none_) := by
  have hrs : storeLookup (storeErase st.store lid) rid = some (SVal.v (Val.tup ti)) :=
    (storeLookup_erase_ne _ _ _ hne).trans hr
  have hops : unpackOps [a, Val.none_, c] (Val.tup ti)
      = [Operation.unpack a (Val.tup ti) 0, Operation.unpack c (Val.tup ti) 2] := by
    simp [unpackOps, List.enum, List.enumFrom, ha, hc,
      unpackIndex_of_none a 0 ha2, unpackIndex_of_none c 2 hc2]
  refine ⟨⟨storeInsert (storeErase (storeErase st.store lid) rid) eid (SVal.v Val.none_),
      st.result ++ [Operation.unpack a (Val.tup ti) 0, Operation.unpack c (Val.tup ti) 2],
      st.counter⟩, ?_, rfl, storeLookup_insert_self _ _ _⟩
  simp only [post_assignement_operation]
  simp [getVal, hl, hrs, Bind.bind, Except.bind, Except.instMonad, setVal, appendOp, hops]
  norm_num [Except.pure]

/-- C4 witness: `(a, , c) = f()` at a concrete state. -/
theorem C4_unpack_slot_indices_witness :
    (¬ Val.localVariable "a" (SolType.elementary "uint256") = Val.none_)
    ∧ ∃ st', post_assignement_operation 0 1 2 AssignmentOperationType.assign Option.none
        ⟨[(1, SVal.list [Val.localVariable "a" (SolType.elementary "uint256"), Val.none_,
            Val.localVariable "c" (SolType.elementary "uint256")]),
          (2, SVal.v (Val.tup 7))], [], 0⟩ = Except.ok st'
      ∧ st'.result = [] ++
          [Operation.unpack (Val.localVariable "a" (SolType.elementary "uint256")) (Val.tup 7) 0,
           Operation.unpack (Val.localVariable "c" (SolType.elementary "uint256")) (Val.tup 7) 2]
      ∧ storeLookup st'.store 0 = some (SVal.v Val.none_) :=
  ⟨by decide,
    C4_unpack_slot_indices 0 1 2 7 AssignmentOperationType.assign Option.none
      ⟨[(1, SVal.list [Val.localVariable "a" (SolType.elementary "uint256"), Val.none_,
          Val.localVariable "c" (SolType.elementary "uint256")]),
        (2, SVal.v (Val.tup 7))], [], 0⟩
      (Val.localVariable "a" (SolType.elementary "uint256"))
      (Val.localVariable "c" (SolType.elementary "uint256"))
      (by decide) (by decide) rfl rfl rfl rfl (by decide)⟩

/-- C5: postfix increment `x++` (folding disabled or inapplicable) emits
exactly two instructions — a plain `Assignment` copying `x`'s pre-mutation
value into a fresh Temporary, then an add-by-constant-1 `Binary` mutating
`x` in place — and records the saved Temporary; prefix `++x` emits only the
add-by-1 instruction and records `x` itself. -/
theorem C5_increment_lowering (gci : Bool) (folded : Option CFValue) (eid vid : Nat)
    (st : LowerState) (x : Val)
    (hfold : gci = false ∨ folded = Option.none)
    (hx : storeLookup st.store vid = some (SVal.v x)) :
    (∃ st', post_unary_operation gci folded eid vid UnaryOperationType.plusplusPost st
        = Except.ok st'
      ∧ st'.result = st.result ++
          [Operation.assignment (Val.temp st.counter Option.none) x x.typeOf,
           Operation.binary x x (Val.const "1" x.typeOf Option.none) BinaryType.addition]
      ∧ storeLookup st'.store eid = some (SVal.v (Val.temp st.counter Option.none)))
    ∧ (∃ st', post_unary_operation gci folded eid vid UnaryOperationType.plusplusPre st
        = Except.ok st'
      ∧ st'.result = st.result ++
          [Operation.binary x x (Val.const "1" x.typeOf Option.none) BinaryType.addition]
      ∧ storeLookup st'.store eid = some (SVal.v x)) := by
  have hfold2 : (if gci then attempt_constant_folding folded false eid st
      else Option.none) = Option.none := by
    rcases hfold with h | h <;> simp [h, attempt_constant_folding]
  constructor
  · refine ⟨⟨storeInsert (storeErase st.store vid) eid (SVal.v (Val.temp st.counter Option.none)),
        st.result ++
          [Operation.assignment (Val.temp st.counter Option.none) x x.typeOf,
           Operation.binary x x (Val.const "1" x.typeOf Option.none) BinaryType.addition],
        st.counter + 1⟩, ?_, rfl, storeLookup_insert_self _ _ _⟩
    simp only [post_unary_operation, hfold2]
    simp [getVal, hx, SVal.asVal, Bind.bind, Except.bind, Except.instMonad, freshId,
      appendOp, setVal]
    norm_num [Except.pure]
  · refine ⟨⟨storeInsert (storeErase st.store vid) eid (SVal.v x),
        st.result ++ [Operation.binary x x (Val.const "1" x.typeOf Option.none) BinaryType.addition],
        st.counter⟩, ?_, rfl, storeLookup_insert_self _ _ _⟩
    simp only [post_unary_operation, hfold2]
    simp [getVal, hx, SVal.asVal, Bind.bind, Except.bind, Except.instMonad, freshId,
      appendOp, setVal]
    norm_num [Except.pure]

/-- C5 witness: `x++` and `++x` at a concrete state. -/
theorem C5_increment_witness :
    (storeLookup ([(1, SVal.v (Val.localVariable "x" (SolType.elementary "uint256")))] : Store) 1
      = some (SVal.v (Val.localVariable "x" (SolType.elementary "uint256"))))
    ∧ ((∃ st', post_unary_operation false Option.none 0 1 UnaryOperationType.plusplusPost
        ⟨[(1, SVal.v (Val.localVariable "x" (SolType.elementary "uint256")))], [], 0⟩
        = Except.ok st'
      ∧ st'.result = [] ++
          [Operation.assignment (Val.temp 0 Option.none)
             (Val.localVariable "x" (SolType.elementary "uint256"))
             (Val.localVariable "x" (SolType.elementary "uint256")).typeOf,
           Operation.binary (Val.localVariable "x" (SolType.elementary "uint256"))
             (Val.localVariable "x" (SolType.elementary "uint256"))
             (Val.const "1" (Val.localVariable "x" (SolType.elementary "uint256")).typeOf Option.none)
             BinaryType.addition]
      ∧ storeLookup st'.store 0 = some (SVal.v (Val.temp 0 Option.none)))
    ∧ (∃ st', post_unary_operation false Option.none 0 1 UnaryOperationType.plusplusPre
        ⟨[(1, SVal.v (Val.localVariable "x" (SolType.elementary "uint256")))], [], 0⟩
        = Except.ok st'
      ∧ st'.result = [] ++
          [Operation.binary (Val.localVariable "x" (SolType.elementary "uint256"))
             (Val.localVariable "x" (SolType.elementary "uint256"))
             (Val.const "1" (Val.localVariable "x" (SolType.elementary "uint256")).typeOf Option.none)
             BinaryType.addition]
      ∧ storeLookup st'.store 0
          = some (SVal.v (Val.localVariable "x" (SolType.elementary "uint256"))))) :=
  ⟨rfl,
    C5_increment_lowering false Option.none 0 1
      ⟨[(1, SVal.v (Val.localVariable "x" (SolType.elementary "uint256")))], [], 0⟩
      (Val.localVariable "x" (SolType.elementary "uint256"))
      (Or.inl rfl) rfl⟩

end Slither

namespace Slither

/-- C1 counterexample: lowering the member access of `type(uint8).max` does
NOT resolve directly to a Constant with no instruction — it emits exactly
one `Assignment` instruction (so the emitted-instruction count is 1, not 0)
and records a fresh `TemporaryVariable`, not a `Constant`, as the
expression's value. -/
theorem C1_counterexample :
    post_member_access 0
      (Expression.callExpr 1 (Expression.identifier 2 (Val.solidityFunction "type()"))
        "type(uint8)" [Expression.elementaryTypeName 3 (SolType.elementary "uint8")]
        Option.none Option.none Option.none) "max"
      ⟨[(1, SVal.v (Val.temp 0 Option.none))], [], 1⟩
    = Except.ok ⟨[(0, SVal.v (Val.temp 1 Option.none))],
        [Operation.assignment (Val.temp 1 Option.none)
          (Val.const "255" (some (SolType.elementary "uint8")) Option.none)
          (some (SolType.elementary "uint8"))], 2⟩
    ∧ [Operation.assignment (Val.temp 1 Option.none)
        (Val.const "255" (some (SolType.elementary "uint8")) Option.none)
        (some (SolType.elementary "uint8"))].length = 1
    ∧ (storeLookup [(0, SVal.v (Val.temp 1 Option.none))] 0).map SVal.isConstVal
        = some false := by
  refine ⟨?_, rfl, rfl⟩
  decide

/-- C1 amended: for every member access `type(X).min` / `type(X).max` (X an
elementary type or an enum), the lowering resolves the expression to a
fresh Temporary and emits exactly one instruction — an `Assignment` of a
`Constant` carrying the type's minimum/maximum (or the enum's first/last
tag) into that Temporary; the recorded value is the Temporary, not the
Constant. -/
theorem C1_type_min_max_one_assignment (eid cid iid aid : Nat) (tc : String)
    (g w s : Option Expression) (mn : String) (st : LowerState) (vS : SVal)
    (hmn : mn = "min" ∨ mn = "max")
    (hlook : storeLookup st.store cid = some vS) :
    (∀ t : SolType,
       ∃ st', post_member_access eid
           (Expression.callExpr cid (Expression.identifier iid (Val.solidityFunction "type()"))
             tc [Expression.elementaryTypeName aid t] g w s) mn st = Except.ok st'
         ∧ st'.result = st.result ++
             [Operation.assignment (Val.temp st.counter Option.none)
               (Val.const (toString (if mn = "min" then solTypeMin t else solTypeMax t))
                 (some t) Option.none)
               (some t)]
         ∧ storeLookup st'.store eid = some (SVal.v (Val.temp st.counter Option.none)))
    ∧ (∀ (en : String) (vs : List String),
       ∃ st', post_member_access eid
           (Expression.callExpr cid (Expression.identifier iid (Val.solidityFunction "type()"))
             tc [Expression.identifier aid (Val.enumVal en vs)] g w s) mn st = Except.ok st'
         ∧ st'.result = st.result ++
             [Operation.assignment (Val.temp st.counter Option.none)
               (Val.const (toString (if mn = "min" then enumMin vs else enumMax vs))
                 Option.none Option.none)
               (some (SolType.enumT en))]
         ∧ storeLookup st'.store eid = some (SVal.v (Val.temp st.counter Option.none))) := by
  constructor
  · intro t
    refine ⟨⟨storeInsert (storeErase st.store cid) eid (SVal.v (Val.temp st.counter Option.none)),
        st.result ++
          [Operation.assignment (Val.temp st.counter Option.none)
            (Val.const (toString (if mn = "min" then solTypeMin t else solTypeMax t))
              (some t) Option.none) (some t)],
        st.counter + 1⟩, ?_, rfl, storeLookup_insert_self _ _ _⟩
    simp only [post_member_access, Expression.eid, getVal, hlook]
    rcases hmn with h | h <;> subst h <;>
      simp [typeMinMax, Bind.bind, Except.bind, Except.instMonad, freshId, appendOp, setVal,
        Except.pure]
  · intro en vs
    refine ⟨⟨storeInsert (storeErase st.store cid) eid (SVal.v (Val.temp st.counter Option.none)),
        st.result ++
          [Operation.assignment (Val.temp st.counter Option.none)
            (Val.const (toString (if mn = "min" then enumMin vs else enumMax vs))
              Option.none Option.none) (some (SolType.enumT en))],
        st.counter + 1⟩, ?_, rfl, storeLookup_insert_self _ _ _⟩
    simp only [post_member_access, Expression.eid, getVal, hlook]
    rcases hmn with h | h <;> subst h <;>
      simp [typeMinMax, Bind.bind, Except.bind, Except.instMonad, freshId, appendOp, setVal,
        Except.pure]

/-- C1 witness: `type(uint8).min` at a concrete state. -/
theorem C1_type_min_max_witness :
    ("min" = "min" ∨ ("min" : String) = "max")
    ∧ ∃ st', post_member_access 0
        (Expression.callExpr 1 (Expression.identifier 2 (Val.solidityFunction "type()"))
          "type(uint8)" [Expression.elementaryTypeName 3 (SolType.elementary "uint8")]
          Option.none Option.none Option.none) "min"
        ⟨[(1, SVal.v (Val.temp 0 Option.none))], [], 1⟩ = Except.ok st'
      ∧ st'.result = [] ++
          [Operation.assignment (Val.temp 1 Option.none)
            (Val.const (toString (if ("min" : String) = "min"
               then solTypeMin (SolType.elementary "uint8")
               else solTypeMax (SolType.elementary "uint8")))
              (some (SolType.elementary "uint8")) Option.none)
            (some (SolType.elementary "uint8"))]
      ∧ storeLookup st'.store 0 = some (SVal.v (Val.temp 1 Option.none)) :=
  ⟨Or.inl rfl,
    (C1_type_min_max_one_assignment 0 1 2 3 "type(uint8)"
      Option.none Option.none Option.none "min"
      ⟨[(1, SVal.v (Val.temp 0 Option.none))], [], 1⟩
      (SVal.v (Val.temp 0 Option.none)) (Or.inl rfl) rfl).1
      (SolType.elementary "uint8")⟩

/-- C10: the base `Call` operation's `can_reenter` and `can_send_eth`
predicates return `False` for every instance and every callstack
argument. -/
theorem C10_base_call_predicates_false (c : CallOperation)
    (callstack : Option (List Val)) :
    c.can_reenter callstack = false ∧ c.can_send_eth = false :=
  ⟨rfl, rfl⟩

end Slither

namespace Slither

/-- C7: with extended-IR mode enabled and the folding evaluator succeeding
(both operands compile-time constants), binary and unary lowering emit no
runtime instruction (the buffer is unchanged) and record a single `Constant`
whose value is the folded result's string form and whose type follows the
fixed priority `foldedTypeSpec`: unsigned for signed comparison/shift
operators (never the case for the unary operator enum), else bool, else
int, with string as the fallback. -/
theorem C7_constant_folding_no_instruction (cv : CFValue) (eid lid rid vid : Nat)
    (bop : BinaryOperationType) (uo : UnaryOperationType) (st : LowerState) :
    (∃ st', post_binary_operation true (some cv) eid lid rid bop st = Except.ok st'
      ∧ st'.result = st.result
      ∧ storeLookup st'.store eid = some (SVal.v (Val.const cv.str
          (some (foldedTypeSpec (signedToUnsigned bop).isSome cv)) Option.none)))
    ∧ (∃ st', post_unary_operation true (some cv) eid vid uo st = Except.ok st'
      ∧ st'.result = st.result
      ∧ storeLookup st'.store eid = some (SVal.v (Val.const cv.str
          (some (foldedTypeSpec false cv)) Option.none))) := by
  constructor
  · refine ⟨setVal eid (SVal.v (Val.const cv.str
        (some (foldedTypeSpec (signedToUnsigned bop).isSome cv)) Option.none)) st,
      ?_, by simp [setVal], by simp [setVal, storeLookup_insert_self]⟩
    cases h : (signedToUnsigned bop).isSome <;>
      cases cv <;>
        simp [post_binary_operation, attempt_constant_folding, foldedTypeSpec, h,
          Except.pure, pure]
  · refine ⟨setVal eid (SVal.v (Val.const cv.str
        (some (foldedTypeSpec false cv)) Option.none)) st,
      ?_, by simp [setVal], by simp [setVal, storeLookup_insert_self]⟩
    cases cv <;>
      simp [post_unary_operation, attempt_constant_folding, foldedTypeSpec,
        Except.pure, pure]

end Slither

namespace Slither

/-- C9: every destructuring assignment — list-to-list, list-to-Tuple, and
the single discarded-tuple-element form — records `None` as the assignment
expression's value, so it can never feed an enclosing expression; a plain
assignment records the left target as its value (supporting `a = b = 1`). -/
theorem C9_destructuring_records_none (eid lid rid : Nat)
    (t : AssignmentOperationType) (rt : Option SolType)
    (st : LowerState) (hne : ¬ rid = lid) :
    (∀ ls rs, storeLookup st.store lid = some (SVal.list ls) →
      storeLookup st.store rid = some (SVal.list rs) → ls.length = rs.length →
      ∃ st', post_assignement_operation eid lid rid t rt st = Except.ok st'
        ∧ st'.result = st.result ++ unboxOps ls rs t rt
        ∧ storeLookup st'.store eid = some (SVal.v Val.none_))
    ∧ (∀ ls ti, storeLookup st.store lid = some (SVal.list ls) →
      storeLookup st.store rid = some (SVal.v (Val.tup ti)) →
      ∃ st', post_assignement_operation eid lid rid t rt st = Except.ok st'
        ∧ st'.result = st.result ++ unpackOps ls (Val.tup ti)
        ∧ storeLookup st'.store eid = some (SVal.v Val.none_))
    ∧ (∀ n ty i ti, storeLookup st.store lid
          = some (SVal.v (Val.localVariableInitFromTuple n ty (some i))) →
      storeLookup st.store rid = some (SVal.v (Val.tup ti)) →
      ∃ st', post_assignement_operation eid lid rid t rt st = Except.ok st'
        ∧ st'.result = st.result
            ++ [Operation.unpack (Val.localVariableInitFromTuple n ty (some i)) (Val.tup ti) i]
        ∧ storeLookup st'.store eid = some (SVal.v Val.none_))
    ∧ (∀ lv rv, storeLookup st.store lid = some (SVal.v lv) →
      storeLookup st.store rid = some (SVal.v rv) →
      (lviftIndex lv = Option.none ∨ asTup (SVal.v rv) = Option.none) →
      ∃ st', post_assignement_operation eid lid rid t rt st = Except.ok st'
        ∧ st'.result = st.result ++ [convert_assignment lv rv t rt]
        ∧ storeLookup st'.store eid = some (SVal.v lv)) := by
  refine ⟨?_, ?_, ?_, ?_⟩
  · intro ls rs hl hr hlen
    have hrs : storeLookup (storeErase st.store lid) rid = some (SVal.list rs) :=
      (storeLookup_erase_ne _ _ _ hne).trans hr
    refine ⟨⟨storeInsert (storeErase (storeErase st.store lid) rid) eid (SVal.v Val.none_),
        st.result ++ unboxOps ls rs t rt, st.counter⟩,
      ?_, rfl, storeLookup_insert_self _ _ _⟩
    simp [post_assignement_operation, getVal, hl, hrs, hlen, Bind.bind, Except.bind,
      Except.instMonad, setVal, appendOp, Except.pure, pure]
  · intro ls ti hl hr
    have hrs : storeLookup (storeErase st.store lid) rid = some (SVal.v (Val.tup ti)) :=
      (storeLookup_erase_ne _ _ _ hne).trans hr
    refine ⟨⟨storeInsert (storeErase (storeErase st.store lid) rid) eid (SVal.v Val.none_),
        st.result ++ unpackOps ls (Val.tup ti), st.counter⟩,
      ?_, rfl, storeLookup_insert_self _ _ _⟩
    simp [post_assignement_operation, getVal, hl, hrs, Bind.bind, Except.bind,
      Except.instMonad, setVal, appendOp, Except.pure, pure]
  · intro n ty i ti hl hr
    have hrs : storeLookup (storeErase st.store lid) rid = some (SVal.v (Val.tup ti)) :=
      (storeLookup_erase_ne _ _ _ hne).trans hr
    refine ⟨⟨storeInsert (storeErase (storeErase st.store lid) rid) eid (SVal.v Val.none_),
        st.result
          ++ [Operation.unpack (Val.localVariableInitFromTuple n ty (some i)) (Val.tup ti) i],
        st.counter⟩,
      ?_, rfl, storeLookup_insert_self _ _ _⟩
    simp [post_assignement_operation, getVal, hl, hrs, Bind.bind, Except.bind,
      Except.instMonad, setVal, appendOp, lviftIndex, asTup, Except.pure, pure]
  · intro lv rv hl hr hcond
    have hrs : storeLookup (storeErase st.store lid) rid = some (SVal.v rv) :=
      (storeLookup_erase_ne _ _ _ hne).trans hr
    refine ⟨⟨storeInsert (storeErase (storeErase st.store lid) rid) eid (SVal.v lv),
        st.result ++ [convert_assignment lv rv t rt], st.counter⟩,
      ?_, rfl, storeLookup_insert_self _ _ _⟩
    rcases hcond with hcond | hcond
    · simp [post_assignement_operation, getVal, hl, hrs, Bind.bind, Except.bind,
        Except.instMonad, setVal, appendOp, hcond, Except.pure, pure]
    · cases h2 : lviftIndex lv <;>
        simp [post_assignement_operation, getVal, hl, hrs, Bind.bind, Except.bind,
          Except.instMonad, setVal, appendOp, hcond, h2, Except.pure, pure]

/-- C9 witness: the list-to-Tuple form `(a) = f()` records `None`, and the
plain form `x = 1` records `x`, at concrete states. -/
theorem C9_destructuring_witness :
    (∃ st', post_assignement_operation 0 1 2 AssignmentOperationType.assign Option.none
        ⟨[(1, SVal.list [Val.localVariable "a" (SolType.elementary "uint256")]),
          (2, SVal.v (Val.tup 7))], [], 0⟩ = Except.ok st'
      ∧ st'.result = [] ++ unpackOps [Val.localVariable "a" (SolType.elementary "uint256")]
          (Val.tup 7)
      ∧ storeLookup st'.store 0 = some (SVal.v Val.none_))
    ∧ (∃ st', post_assignement_operation 0 1 2 AssignmentOperationType.assign Option.none
        ⟨[(1, SVal.v (Val.localVariable "x" (SolType.elementary "uint256"))),
          (2, SVal.v (Val.const "1" (some (SolType.elementary "uint256")) Option.none))],
         [], 0⟩ = Except.ok st'
      ∧ st'.result = [] ++ [convert_assignment
          (Val.localVariable "x" (SolType.elementary "uint256"))
          (Val.const "1" (some (SolType.elementary "uint256")) Option.none)
          AssignmentOperationType.assign Option.none]
      ∧ storeLookup st'.store 0
          = some (SVal.v (Val.localVariable "x" (SolType.elementary "uint256")))) :=
  ⟨(C9_destructuring_records_none 0 1 2 AssignmentOperationType.assign Option.none
      ⟨[(1, SVal.list [Val.localVariable "a" (SolType.elementary "uint256")]),
        (2, SVal.v (Val.tup 7))], [], 0⟩ (by decide)).2.1
      [Val.localVariable "a" (SolType.elementary "uint256")] 7 rfl rfl,
   (C9_destructuring_records_none 0 1 2 AssignmentOperationType.assign Option.none
      ⟨[(1, SVal.v (Val.localVariable "x" (SolType.elementary "uint256"))),
        (2, SVal.v (Val.const "1" (some (SolType.elementary "uint256")) Option.none))],
       [], 0⟩ (by decide)).2.2.2
      (Val.localVariable "x" (SolType.elementary "uint256"))
      (Val.const "1" (some (SolType.elementary "uint256")) Option.none)
      rfl rfl (Or.inl rfl)⟩

end Slither

namespace Slither

/-- The placeholder arm of the call lowering: with no yul pseudo-function
name matching, a call with a `{value: v}` modifier produces exactly one
`TmpCall` carrying the callee, the argument count, the typeCall-directed
destination (Tuple or Temporary), and the already-lowered value modifier. -/
theorem call_rest_unresolved (eid : Nat) (called : Val) (tc : String) (args : List Val)
    (ve : Expression) (vval : Val) (st : LowerState)
    (hn : ¬ (called.nameOf = some "caller()" ∨ called.nameOf = some "origin()"
        ∨ called.nameOf = some "extcodesize(uint256)" ∨ called.nameOf = some "selfbalance()"
        ∨ called.nameOf = some "address()" ∨ called.nameOf = some "callvalue()"))
    (hv : storeLookup st.store ve.eid = some (SVal.v vval)) :
    call_rest eid called tc args Option.none (some ve) Option.none st = Except.ok
      (setVal eid (SVal.v (if strStartsWith tc "tuple(" ∧ ¬ tc = "tuple()"
          then Val.tup st.counter else Val.temp st.counter Option.none))
        (appendOp (Operation.tmpCall called args.length
            (if strStartsWith tc "tuple(" ∧ ¬ tc = "tuple()"
              then Val.tup st.counter else Val.temp st.counter Option.none)
            tc Option.none (some vval) Option.none)
          ⟨storeErase st.store ve.eid, st.result, st.counter + 1⟩)) := by
  have h1 : ¬ called.nameOf = some "caller()" := fun hh => hn (Or.inl hh)
  have h2 : ¬ called.nameOf = some "origin()" := fun hh => hn (Or.inr (Or.inl hh))
  have h3 : ¬ called.nameOf = some "extcodesize(uint256)" :=
    fun hh => hn (Or.inr (Or.inr (Or.inl hh)))
  have h4 : ¬ called.nameOf = some "selfbalance()" :=
    fun hh => hn (Or.inr (Or.inr (Or.inr (Or.inl hh))))
  have h5 : ¬ called.nameOf = some "address()" :=
    fun hh => hn (Or.inr (Or.inr (Or.inr (Or.inr (Or.inl hh)))))
  have h6 : ¬ called.nameOf = some "callvalue()" :=
    fun hh => hn (Or.inr (Or.inr (Or.inr (Or.inr (Or.inr hh)))))
  by_cases htc : strStartsWith tc "tuple(" ∧ ¬ tc = "tuple()"
  · simp [call_rest, h1, h2, h3, h4, h5, h6, htc, freshId, readOptModifier, getVal, hv,
      SVal.asVal, Bind.bind, Except.bind, Except.instMonad, appendOp, setVal, Except.pure, pure]
  · simp [call_rest, h1, h2, h3, h4, h5, h6, htc, freshId, readOptModifier, getVal, hv,
      SVal.asVal, Bind.bind, Except.bind, Except.instMonad, appendOp, setVal, Except.pure, pure]

/-- C8: lowering a call expression whose callee value does not resolve to a
known function, wrap/unwrap selector, or environment pseudo-function (e.g.
`x.call{value: v}("")`, whose callee lowers to a reference) emits one
argument-marker instruction per argument followed by a single placeholder
`TmpCall` whose call-value modifier equals the lowered `v`, and emits no
internal-call instruction. -/
theorem C8_unresolved_call_placeholder (eid : Nat) (calledExpr ae ve : Expression)
    (tc : String) (st : LowerState) (called argv vval val : Val)
    (hunres : isUnresolvedCallee called = true)
    (hcalled : storeLookup st.store calledExpr.eid = some (SVal.v called))
    (harg : storeLookup st.store ae.eid = some (SVal.v argv))
    (hv : storeLookup st.store ve.eid = some (SVal.v vval))
    (hne1 : ¬ ae.eid = calledExpr.eid) (hne2 : ¬ ve.eid = calledExpr.eid)
    (hne3 : ¬ ve.eid = ae.eid)
    (hval : val = if strStartsWith tc "tuple(" ∧ ¬ tc = "tuple()" then Val.tup st.counter
      else Val.temp st.counter Option.none) :
    ∃ st', post_call_expression eid calledExpr tc [ae] Option.none (some ve) Option.none st
        = Except.ok st'
      ∧ st'.result = st.result ++
          [Operation.argument argv,
           Operation.tmpCall called 1 val tc Option.none (some vval) Option.none]
      ∧ (List.drop st.result.length st'.result).all (fun op => !op.isInternalCall) = true
      ∧ storeLookup st'.store eid = some (SVal.v val) := by
  subst hval
  have hargs : storeLookup (storeErase st.store calledExpr.eid) ae.eid = some (SVal.v argv) :=
    (storeLookup_erase_ne _ _ _ hne1).trans harg
  have hvv : storeLookup (storeErase (storeErase st.store calledExpr.eid) ae.eid) ve.eid
      = some (SVal.v vval) :=
    (storeLookup_erase_ne _ _ _ hne3).trans ((storeLookup_erase_ne _ _ _ hne2).trans hv)
  have hn : ¬ (called.nameOf = some "caller()" ∨ called.nameOf = some "origin()"
      ∨ called.nameOf = some "extcodesize(uint256)" ∨ called.nameOf = some "selfbalance()"
      ∨ called.nameOf = some "address()" ∨ called.nameOf = some "callvalue()") := by
    simp only [isUnresolvedCallee, Bool.and_eq_true, Bool.not_eq_true',
      decide_eq_false_iff_not] at hunres
    intro hh
    rcases hunres with ⟨hm, hns⟩
    simp only [Bool.or_eq_false_iff, decide_eq_false_iff_not] at hns
    rcases hh with h | h | h | h | h | h <;> simp_all
  simp only [isUnresolvedCallee, Bool.and_eq_true] at hunres
  obtain ⟨hm, _⟩ := hunres
  have key : post_call_expression eid calledExpr tc [ae] Option.none (some ve) Option.none st
      = call_rest eid called tc [argv] Option.none (some ve) Option.none
          ⟨storeErase (storeErase st.store calledExpr.eid) ae.eid,
           st.result ++ [Operation.argument argv], st.counter⟩ := by
    cases called <;> simp at hm <;>
      simp [post_call_expression, getVal, hcalled, hargs, getArgVals, SVal.asVal,
        Bind.bind, Except.bind, Except.instMonad, appendOp, Except.pure, pure]
  rw [key, call_rest_unresolved eid called tc [argv] ve vval
    ⟨storeErase (storeErase st.store calledExpr.eid) ae.eid,
     st.result ++ [Operation.argument argv], st.counter⟩ hn hvv]
  refine ⟨_, rfl, ?_, ?_, ?_⟩
  · simp [setVal, appendOp]
  · simp [setVal, appendOp, List.drop_left, Operation.isInternalCall]
  · simp [setVal, storeLookup_insert_self]

/-- C8 witness: `x.call{value: v}("")` at a concrete state (the callee
`x.call` lowered to a reference, the argument `""` to a Constant, `v` to a
local variable). -/
theorem C8_unresolved_call_witness :
    isUnresolvedCallee (Val.ref 5) = true
    ∧ ∃ st', post_call_expression 0
        (Expression.memberAccess 1
          (Expression.identifier 9 (Val.localVariable "x" (SolType.elementary "address")))
          "call")
        "tuple(bool,bytes memory)"
        [Expression.literal 2 "" (SolType.elementary "string") Option.none]
        Option.none
        (some (Expression.identifier 3 (Val.localVariable "v" (SolType.elementary "uint256"))))
        Option.none
        ⟨[(1, SVal.v (Val.ref 5)),
          (2, SVal.v (Val.const "" (some (SolType.elementary "string")) Option.none)),
          (3, SVal.v (Val.localVariable "v" (SolType.elementary "uint256")))], [], 6⟩
        = Except.ok st'
      ∧ st'.result = [] ++
          [Operation.argument (Val.const "" (some (SolType.elementary "string")) Option.none),
           Operation.tmpCall (Val.ref 5) 1 (Val.tup 6) "tuple(bool,bytes memory)"
             Option.none (some (Val.localVariable "v" (SolType.elementary "uint256")))
             Option.none]
      ∧ (List.drop ([] : List Operation).length st'.result).all
          (fun op => !op.isInternalCall) = true
      ∧ storeLookup st'.store 0 = some (SVal.v (Val.tup 6)) :=
  ⟨by decide,
    C8_unresolved_call_placeholder 0
      (Expression.memberAccess 1
        (Expression.identifier 9 (Val.localVariable "x" (SolType.elementary "address")))
        "call")
      (Expression.literal 2 "" (SolType.elementary "string") Option.none)
      (Expression.identifier 3 (Val.localVariable "v" (SolType.elementary "uint256")))
      "tuple(bool,bytes memory)"
      ⟨[(1, SVal.v (Val.ref 5)),
        (2, SVal.v (Val.const "" (some (SolType.elementary "string")) Option.none)),
        (3, SVal.v (Val.localVariable "v" (SolType.elementary "uint256")))], [], 6⟩
      (Val.ref 5)
      (Val.const "" (some (SolType.elementary "string")) Option.none)
      (Val.localVariable "v" (SolType.elementary "uint256"))
      (Val.tup 6)
      (by decide) rfl rfl rfl (by decide) (by decide) (by decide) (by decide)⟩

end Slither

namespace Slither

/-- C6 counterexample: after the top-level lowering of the statement
`x = 1` on a node that is NOT a function-return point, the scratch store is
not empty — it still holds the root assignment node's entry (the recorded
left value `x`), since only a return node's closing `Return` reads the
root's slot. This refutes the claim's "after the top-level lowering of a
statement returns, no scratch-store entry remains for any node of that
statement". -/
theorem C6_counterexample :
    expressionToSlithIR 10 false (fun _ => Option.none) false
      (Expression.assignment 0
        (Expression.identifier 1 (Val.localVariable "x" (SolType.elementary "uint256")))
        AssignmentOperationType.assign Option.none
        (Expression.literal 2 "1" (SolType.elementary "uint256") Option.none))
    = Except.ok ⟨[(0, SVal.v (Val.localVariable "x" (SolType.elementary "uint256")))],
        [Operation.assignment (Val.localVariable "x" (SolType.elementary "uint256"))
           (Val.const "1" (some (SolType.elementary "uint256")) Option.none) Option.none],
        0⟩
    ∧ ([(0, SVal.v (Val.localVariable "x" (SolType.elementary "uint256")))] : Store) ≠ [] :=
  ⟨by decide, by decide⟩

/-- C6 amended: `get` clears a node's slot at the moment it reads it (the
slot is gone from the resulting store, every other slot untouched), so each
slot is read at most once — a second read, or a read of a never-written
slot, fails with a KeyError rather than returning a default. (The
whole-store-emptiness clause of the original claim does not hold: the root's
entry survives on non-return statements, as `C6_counterexample` shows.) -/
theorem C6_get_read_once_then_clear (id : Nat) (st : LowerState) :
    (∀ vS st', getVal id st = Except.ok (vS, st') →
        storeLookup st'.store id = Option.none
        ∧ getVal id st' = Except.error "KeyError"
        ∧ ∀ j, ¬ j = id → storeLookup st'.store j = storeLookup st.store j)
    ∧ (storeLookup st.store id = Option.none → getVal id st = Except.error "KeyError") := by
  constructor
  · intro vS st' h
    cases hl : storeLookup st.store id with
    | none => simp [getVal, hl] at h
    | some v =>
        simp [getVal, hl] at h
        obtain ⟨h1, h2⟩ := h
        subst h2
        refine ⟨storeLookup_erase_self _ _, ?_, ?_⟩
        · simp [getVal, storeLookup_erase_self]
        · intro j hj
          exact storeLookup_erase_ne _ _ _ hj
  · intro h
    simp [getVal, h]

/-- C6 witness: a concrete read clears the slot, the second read fails, and
an unrelated slot is untouched. -/
theorem C6_get_discipline_witness :
    (getVal 0 ⟨[(0, SVal.v Val.none_), (7, SVal.v (Val.ref 1))], [], 0⟩
      = Except.ok (SVal.v Val.none_, ⟨[(7, SVal.v (Val.ref 1))], [], 0⟩))
    ∧ storeLookup ([(7, SVal.v (Val.ref 1))] : Store) 0 = Option.none
    ∧ getVal 0 ⟨[(7, SVal.v (Val.ref 1))], [], 0⟩ = Except.error "KeyError"
    ∧ storeLookup ([(7, SVal.v (Val.ref 1))] : Store) 7
        = storeLookup ([(0, SVal.v Val.none_), (7, SVal.v (Val.ref 1))] : Store) 7 := by
  have h := (C6_get_read_once_then_clear 0
      ⟨[(0, SVal.v Val.none_), (7, SVal.v (Val.ref 1))], [], 0⟩).1
    (SVal.v Val.none_) ⟨[(7, SVal.v (Val.ref 1))], [], 0⟩ (by decide)
  exact ⟨by decide, h.1, h.2.1, h.2.2 7 (by decide)⟩

end Slither
